import Mathlib

/-!
Shallow embedding of the CHIP-8 interpreter in `src/lib.rs` (module `emulator`).

Machine integers are modelled as `Nat` with explicit reduction `% 256`
(`u8`) and `% 65536` (`u16`) at the points where the Rust code performs
fixed-width arithmetic.  Fallible operations (array indexing that can go
out of bounds, `Vec::pop().unwrap()`, the invalid-opcode abort in
`execute_instruction`) are modelled by `Option`: `none` means the Rust
process aborts.  Fixed-size Rust arrays are modelled as `List`s whose
lengths are tracked by the well-formedness predicate `Chip8.WF`.
-/

/- ===== data model (struct-for-struct from the Rust source) ===== -/

/-- `struct Timer { sound: u8, delay: u8 }`. -/
structure Timer where
  sound : Nat
  delay : Nat
deriving DecidableEq, Repr

/-- `struct Register { v: [u8; 16], i: u16 }`. -/
structure Register where
  v : List Nat
  i : Nat
deriving DecidableEq, Repr

/-- `struct Screen { pixels: [bool; 2048], cols: usize, rows: usize, pixel_size: usize }`. -/
structure Screen where
  pixels : List Bool
  cols : Nat
  rows : Nat
  pixel_size : Nat
deriving DecidableEq, Repr

/-- `struct Keyboard { keymap: [bool; 16] }`. -/
structure Keyboard where
  keymap : List Bool
deriving DecidableEq, Repr

/-- The machine state `struct Chip8`. -/
structure Chip8 where
  registers : Register
  timers : Timer
  screen : Screen
  memory : List Nat
  stack : List Nat
  pc : Nat
  keyboard : Keyboard
deriving DecidableEq, Repr

/-- `Screen::new()`. -/
def Screen.new : Screen :=
  { pixels := List.replicate 2048 false, cols := 64, rows := 32, pixel_size := 24 }

/-- `Screen::set(row, col, val) -> u8`: wraps the coordinates modulo
`rows`/`cols`, reports a collision (1) when the addressed pixel is lit and
`val` is true, and XORs `val` into the pixel.  Returned as
(collision answer, updated screen). -/
def Screen.set (s : Screen) (row col : Nat) (val : Bool) : Nat × Screen :=
  let row_ := row % s.rows
  let col_ := col % s.cols
  let idx := row_ * s.cols + col_
  let ans := if s.pixels.getD idx false && val then 1 else 0
  (ans, { s with pixels := s.pixels.set idx (xor (s.pixels.getD idx false) val) })

/-- `Keyboard::new()`. -/
def Keyboard.new : Keyboard := { keymap := List.replicate 16 false }

/-- `Chip8::new()`. -/
def Chip8.new : Chip8 :=
  { registers := { v := List.replicate 16 0, i := 0 }
    timers := { sound := 0, delay := 0 }
    screen := Screen.new
    memory := List.replicate 4096 0
    stack := []
    pc := 0x200
    keyboard := Keyboard.new }

/-- The 80-byte built-in font table written by `Chip8::load`. -/
def fontData : List Nat :=
  [0xF0, 0x90, 0x90, 0x90, 0xF0, 0x20, 0x60, 0x20, 0x20, 0x70, 0xF0, 0x10, 0xF0, 0x80,
   0xF0, 0xF0, 0x10, 0xF0, 0x10, 0xF0, 0x90, 0x90, 0xF0, 0x10, 0x10, 0xF0, 0x80, 0xF0,
   0x10, 0xF0, 0xF0, 0x80, 0xF0, 0x90, 0xF0, 0xF0, 0x10, 0x20, 0x40, 0x40, 0xF0, 0x90,
   0xF0, 0x90, 0xF0, 0xF0, 0x90, 0xF0, 0x10, 0xF0, 0xF0, 0x90, 0xF0, 0x90, 0x90, 0xE0,
   0x90, 0xE0, 0x90, 0xE0, 0xF0, 0x80, 0x80, 0x80, 0xF0, 0xE0, 0x90, 0x90, 0x90, 0xE0,
   0xF0, 0x80, 0xF0, 0x80, 0xF0, 0xF0, 0x80, 0xF0, 0x80, 0x80]

/-- Overwrite `data.length` bytes of `mem` starting at `start`, one byte
at a time (the `copy_from_slice` calls in `Chip8::load`). -/
def writeSlice : List Nat → Nat → List Nat → List Nat
  | mem, _, [] => mem
  | mem, start, b :: rest => writeSlice (mem.set start b) (start + 1) rest

/-- `Chip8::load`: the program image is copied to memory at 0x200, then the
font table to bytes 0..80. -/
def Chip8.load (c : Chip8) (program : List Nat) : Chip8 :=
  { c with memory := writeSlice (writeSlice c.memory 0x200 program) 0 fontData }

/- ===== instruction handlers, one per Rust method ===== -/

/-- `op00E0`: clear the screen; PC += 2. -/
def Chip8.op00E0 (c : Chip8) : Chip8 :=
  { c with screen := { c.screen with pixels := List.replicate 2048 false },
           pc := (c.pc + 2) % 65536 }

/-- `op00EE`: `self.pc = self.stack.pop().unwrap() + 2`.  The stack is
modelled top-first, so `Vec::push`/`Vec::pop` act on the head; popping an
empty stack is the `unwrap` abort, modelled as `none`. -/
def Chip8.op00EE (c : Chip8) : Option Chip8 :=
  match c.stack with
  | [] => none
  | top :: rest => some { c with stack := rest, pc := (top + 2) % 65536 }

/-- `op1nnn`: jump. -/
def Chip8.op1nnn (c : Chip8) (nnn : Nat) : Chip8 :=
  { c with pc := nnn }

/-- `op2nnn`: call; pushes the call-site PC, jumps to `nnn`. -/
def Chip8.op2nnn (c : Chip8) (nnn : Nat) : Chip8 :=
  { c with stack := c.pc :: c.stack, pc := nnn }

/-- `op3xkk`: skip next instruction if `v[x] == kk`. -/
def Chip8.op3xkk (c : Chip8) (x : Nat) (kk : Nat) : Chip8 :=
  if c.registers.v.getD x 0 = kk
  then { c with pc := ((c.pc + 2) % 65536 + 2) % 65536 }
  else { c with pc := (c.pc + 2) % 65536 }

/-- `op4xkk`: skip next instruction if `v[x] != kk`. -/
def Chip8.op4xkk (c : Chip8) (x : Nat) (kk : Nat) : Chip8 :=
  if c.registers.v.getD x 0 ≠ kk
  then { c with pc := ((c.pc + 2) % 65536 + 2) % 65536 }
  else { c with pc := (c.pc + 2) % 65536 }

/-- `op5xy0`: skip next instruction if `v[x] == v[y]`. -/
def Chip8.op5xy0 (c : Chip8) (x y : Nat) : Chip8 :=
  if c.registers.v.getD x 0 = c.registers.v.getD y 0
  then { c with pc := ((c.pc + 2) % 65536 + 2) % 65536 }
  else { c with pc := (c.pc + 2) % 65536 }

/-- `op6xkk`: load immediate. -/
def Chip8.op6xkk (c : Chip8) (x : Nat) (kk : Nat) : Chip8 :=
  { c with registers := { c.registers with v := c.registers.v.set x kk },
           pc := (c.pc + 2) % 65536 }

/-- `op7xkk`: add immediate, `wrapping_add` on `u8`. -/
def Chip8.op7xkk (c : Chip8) (x : Nat) (kk : Nat) : Chip8 :=
  { c with registers := { c.registers with
             v := c.registers.v.set x ((c.registers.v.getD x 0 + kk) % 256) },
           pc := (c.pc + 2) % 65536 }

/-- `op8xy0`: copy register. -/
def Chip8.op8xy0 (c : Chip8) (x y : Nat) : Chip8 :=
  { c with registers := { c.registers with
             v := c.registers.v.set x (c.registers.v.getD y 0) },
           pc := (c.pc + 2) % 65536 }

/-- `op8xy1`: OR, then flag register forced to 0. -/
def Chip8.op8xy1 (c : Chip8) (x y : Nat) : Chip8 :=
  { c with registers := { c.registers with
             v := (c.registers.v.set x
                     (c.registers.v.getD x 0 ||| c.registers.v.getD y 0)).set 15 0 },
           pc := (c.pc + 2) % 65536 }

/-- `op8xy2`: AND, then flag register forced to 0. -/
def Chip8.op8xy2 (c : Chip8) (x y : Nat) : Chip8 :=
  { c with registers := { c.registers with
             v := (c.registers.v.set x
                     (c.registers.v.getD x 0 &&& c.registers.v.getD y 0)).set 15 0 },
           pc := (c.pc + 2) % 65536 }

/-- `op8xy3`: XOR, then flag register forced to 0. -/
def Chip8.op8xy3 (c : Chip8) (x y : Nat) : Chip8 :=
  { c with registers := { c.registers with
             v := (c.registers.v.set x
                     (c.registers.v.getD x 0 ^^^ c.registers.v.getD y 0)).set 15 0 },
           pc := (c.pc + 2) % 65536 }

/-- `op8xy4`: add registers.  The result is written into `v[x]` first
(`wrapping_add`), then the carry flag is written into `v[15]`. -/
def Chip8.op8xy4 (c : Chip8) (x y : Nat) : Chip8 :=
  let val := c.registers.v.getD x 0 + c.registers.v.getD y 0
  let v1 := c.registers.v.set x
              ((c.registers.v.getD x 0 + c.registers.v.getD y 0) % 256)
  let v2 := if val > 255 then v1.set 15 1 else v1.set 15 0
  { c with registers := { c.registers with v := v2 }, pc := (c.pc + 2) % 65536 }

/-- `op8xy5`: subtract `v[x] - v[y]` (`wrapping_sub`), flag = no-borrow. -/
def Chip8.op8xy5 (c : Chip8) (x y : Nat) : Chip8 :=
  let xx := c.registers.v.getD x 0
  let yy := c.registers.v.getD y 0
  let v1 := c.registers.v.set x ((256 + c.registers.v.getD x 0 - c.registers.v.getD y 0) % 256)
  let v2 := if xx < yy then v1.set 15 0 else v1.set 15 1
  { c with registers := { c.registers with v := v2 }, pc := (c.pc + 2) % 65536 }

/-- `op8xy6`: shift right; flag = bit shifted out. -/
def Chip8.op8xy6 (c : Chip8) (x : Nat) (_y : Nat) : Chip8 :=
  let xx := c.registers.v.getD x 0
  { c with registers := { c.registers with
             v := (c.registers.v.set x (c.registers.v.getD x 0 / 2)).set 15 (xx &&& 1) },
           pc := (c.pc + 2) % 65536 }

/-- `op8xy7`: subtract `v[y] - v[x]` (`wrapping_sub`), flag = no-borrow. -/
def Chip8.op8xy7 (c : Chip8) (x y : Nat) : Chip8 :=
  let xx := c.registers.v.getD x 0
  let yy := c.registers.v.getD y 0
  let v1 := c.registers.v.set x ((256 + c.registers.v.getD y 0 - c.registers.v.getD x 0) % 256)
  let v2 := if yy < xx then v1.set 15 0 else v1.set 15 1
  { c with registers := { c.registers with v := v2 }, pc := (c.pc + 2) % 65536 }

/-- `op8xyE`: shift left (wrapping on `u8`); flag = bit shifted out. -/
def Chip8.op8xyE (c : Chip8) (x : Nat) (_y : Nat) : Chip8 :=
  let xx := c.registers.v.getD x 0
  { c with registers := { c.registers with
             v := (c.registers.v.set x (c.registers.v.getD x 0 * 2 % 256)).set 15
                    ((xx &&& 128) >>> 7) },
           pc := (c.pc + 2) % 65536 }

/-- `op9xy0`: skip next instruction if `v[x] != v[y]`. -/
def Chip8.op9xy0 (c : Chip8) (x y : Nat) : Chip8 :=
  if c.registers.v.getD x 0 ≠ c.registers.v.getD y 0
  then { c with pc := ((c.pc + 2) % 65536 + 2) % 65536 }
  else { c with pc := (c.pc + 2) % 65536 }

/-- `opAnnn`: set index register. -/
def Chip8.opAnnn (c : Chip8) (nnn : Nat) : Chip8 :=
  { c with registers := { c.registers with i := nnn }, pc := (c.pc + 2) % 65536 }

/-- `opBnnn`: jump with offset `v[0]`. -/
def Chip8.opBnnn (c : Chip8) (nnn : Nat) : Chip8 :=
  { c with pc := (nnn + c.registers.v.getD 0 0) % 65536 }

/-- `opCxkk`: random byte AND mask.  The host RNG draw
(`gen_range(0, 255)`, a value in `[0, 255)`) is abstracted as the
external input `rnd`. -/
def Chip8.opCxkk (c : Chip8) (x : Nat) (kk : Nat) (rnd : Nat) : Chip8 :=
  { c with registers := { c.registers with
             v := c.registers.v.set x ((rnd % 255) &&& kk) },
           pc := (c.pc + 2) % 65536 }

/-- One inner-loop iteration of `opDxyn` at row offset `byt`, bit `bit`:
reads one sprite bit from memory (aborting when `i + byt` is out of
bounds), XOR-draws it at `(v[y] + byt, v[x] + bit)` and ORs the collision
answer into `v[15]`.  The coordinate registers are re-read here on every
iteration, exactly as the Rust loop body does. -/
def Chip8.drawStep (c : Chip8) (x y : Nat) (byt bit : Nat) : Option Chip8 :=
  if c.registers.i + byt < 4096 then
    let pixel := (c.memory.getD (c.registers.i + byt) 0 >>> (7 - bit)) &&& 1
    let res := c.screen.set (c.registers.v.getD y 0 + byt)
                            (c.registers.v.getD x 0 + bit) (pixel == 1)
    some { c with screen := res.2,
                  registers := { c.registers with
                    v := c.registers.v.set 15 (c.registers.v.getD 15 0 ||| res.1) } }
  else none

/-- `opDxyn`: draw sprite.  Resets `v[15]`, then runs the nested
byte/bit loops, then PC += 2. -/
def Chip8.opDxyn (c : Chip8) (x y : Nat) (n : Nat) : Option Chip8 :=
  match (List.range n).foldl
      (fun acc byt => (List.range 8).foldl
        (fun acc2 bit => acc2.bind fun cc => cc.drawStep x y byt bit) acc)
      (some { c with registers := { c.registers with v := c.registers.v.set 15 0 } }) with
  | some c2 => some { c2 with pc := (c2.pc + 2) % 65536 }
  | none => none

/-- `opEx9E`: skip if the key numbered `v[x]` is down.  The Rust code
indexes the 16-entry keymap array with the full byte `v[x]`; an index of
16 or more is an out-of-bounds abort, modelled as `none`. -/
def Chip8.opEx9E (c : Chip8) (x : Nat) : Option Chip8 :=
  if c.registers.v.getD x 0 < 16 then
    if c.keyboard.keymap.getD (c.registers.v.getD x 0) false
    then some { c with pc := ((c.pc + 2) % 65536 + 2) % 65536 }
    else some { c with pc := (c.pc + 2) % 65536 }
  else none

/-- `opExA1`: skip if the key numbered `v[x]` is not down; same
out-of-bounds abort as `opEx9E`. -/
def Chip8.opExA1 (c : Chip8) (x : Nat) : Option Chip8 :=
  if c.registers.v.getD x 0 < 16 then
    if c.keyboard.keymap.getD (c.registers.v.getD x 0) false
    then some { c with pc := (c.pc + 2) % 65536 }
    else some { c with pc := ((c.pc + 2) % 65536 + 2) % 65536 }
  else none

/-- `opFx07`: read delay timer. -/
def Chip8.opFx07 (c : Chip8) (x : Nat) : Chip8 :=
  { c with registers := { c.registers with v := c.registers.v.set x c.timers.delay },
           pc := (c.pc + 2) % 65536 }

/-- The ascending scan of `opFx0A` over the keymap (`for i in 0..16`),
carrying the index of the current entry.  The keymap array always has 16
entries, so the scan is over the list itself. -/
def findFirstKeyAux : List Bool → Nat → Option Nat
  | [], _ => none
  | b :: rest, idx => if b then some idx else findFirstKeyAux rest (idx + 1)

/-- `opFx0A`: block for key.  On the first key found down (lowest index),
stores its index in `v[x]` and advances PC; with no key down the handler
returns with the state untouched. -/
def Chip8.opFx0A (c : Chip8) (x : Nat) : Chip8 :=
  match findFirstKeyAux c.keyboard.keymap 0 with
  | some i => { c with registers := { c.registers with v := c.registers.v.set x i },
                       pc := (c.pc + 2) % 65536 }
  | none => c

/-- `opFx15`: set delay timer. -/
def Chip8.opFx15 (c : Chip8) (x : Nat) : Chip8 :=
  { c with timers := { c.timers with delay := c.registers.v.getD x 0 },
           pc := (c.pc + 2) % 65536 }

/-- `opFx18`: set sound timer. -/
def Chip8.opFx18 (c : Chip8) (x : Nat) : Chip8 :=
  { c with timers := { c.timers with sound := c.registers.v.getD x 0 },
           pc := (c.pc + 2) % 65536 }

/-- `opFx1E`: add to index, `u16` addition. -/
def Chip8.opFx1E (c : Chip8) (x : Nat) : Chip8 :=
  { c with registers := { c.registers with
             i := (c.registers.i + c.registers.v.getD x 0) % 65536 },
           pc := (c.pc + 2) % 65536 }

/-- `opFx29`: set index to the font glyph address `v[x] * 5`. -/
def Chip8.opFx29 (c : Chip8) (x : Nat) : Chip8 :=
  { c with registers := { c.registers with i := c.registers.v.getD x 0 * 5 },
           pc := (c.pc + 2) % 65536 }

/-- `opFx33`: store BCD digits of `v[x]` at `i`, `i+1`, `i+2`; an index
past the end of memory is an out-of-bounds abort. -/
def Chip8.opFx33 (c : Chip8) (x : Nat) : Option Chip8 :=
  if c.registers.i + 2 < 4096 then
    let xx := c.registers.v.getD x 0
    some { c with memory := ((c.memory.set c.registers.i (xx / 100)).set
                              (c.registers.i + 1) (xx / 10 % 10)).set
                              (c.registers.i + 2) (xx % 10),
                  pc := (c.pc + 2) % 65536 }
  else none

/-- `opFx55`: store `v[0..=x]` to memory at `i`; then `i += x + 1`.  An
index past the end of memory is an out-of-bounds abort. -/
def Chip8.opFx55 (c : Chip8) (x : Nat) : Option Chip8 :=
  if c.registers.i + x < 4096 then
    some { c with memory := (List.range (x + 1)).foldl
                    (fun m k => m.set (c.registers.i + k) (c.registers.v.getD k 0)) c.memory,
                  registers := { c.registers with i := (c.registers.i + x + 1) % 65536 },
                  pc := (c.pc + 2) % 65536 }
  else none

/-- `opFx65`: load `v[0..=x]` from memory at `i`; then `i += x + 1`.  An
index past the end of memory is an out-of-bounds abort. -/
def Chip8.opFx65 (c : Chip8) (x : Nat) : Option Chip8 :=
  if c.registers.i + x < 4096 then
    some { c with registers := { c.registers with
                    v := (List.range (x + 1)).foldl
                      (fun vv k => vv.set k (c.memory.getD (c.registers.i + k) 0))
                      c.registers.v,
                    i := (c.registers.i + x + 1) % 65536 },
                  pc := (c.pc + 2) % 65536 }
  else none

/-- `execute_instruction`: decode the four nibbles and the operand fields
of `ins` and dispatch, in the source's arm order.  The nibble masks
`(ins & 0xF000) >> 12` etc. are written as division/modulus.  The final
arm is the invalid-opcode abort, modelled as `none`. -/
def Chip8.execute_instruction (c : Chip8) (ins : Nat) (rnd : Nat) : Option Chip8 :=
  if ins / 4096 % 16 = 0 ∧ ins / 256 % 16 = 0 ∧ ins / 16 % 16 = 14 ∧ ins % 16 = 14 then
    c.op00EE
  else if ins / 4096 % 16 = 0 then some c.op00E0
  else if ins / 4096 % 16 = 1 then some (c.op1nnn (ins % 4096))
  else if ins / 4096 % 16 = 2 then some (c.op2nnn (ins % 4096))
  else if ins / 4096 % 16 = 3 then some (c.op3xkk (ins / 256 % 16) (ins % 256))
  else if ins / 4096 % 16 = 4 then some (c.op4xkk (ins / 256 % 16) (ins % 256))
  else if ins / 4096 % 16 = 5 then some (c.op5xy0 (ins / 256 % 16) (ins / 16 % 16))
  else if ins / 4096 % 16 = 6 then some (c.op6xkk (ins / 256 % 16) (ins % 256))
  else if ins / 4096 % 16 = 7 then some (c.op7xkk (ins / 256 % 16) (ins % 256))
  else if ins / 4096 % 16 = 8 ∧ ins % 16 = 0 then
    some (c.op8xy0 (ins / 256 % 16) (ins / 16 % 16))
  else if ins / 4096 % 16 = 8 ∧ ins % 16 = 1 then
    some (c.op8xy1 (ins / 256 % 16) (ins / 16 % 16))
  else if ins / 4096 % 16 = 8 ∧ ins % 16 = 2 then
    some (c.op8xy2 (ins / 256 % 16) (ins / 16 % 16))
  else if ins / 4096 % 16 = 8 ∧ ins % 16 = 3 then
    some (c.op8xy3 (ins / 256 % 16) (ins / 16 % 16))
  else if ins / 4096 % 16 = 8 ∧ ins % 16 = 4 then
    some (c.op8xy4 (ins / 256 % 16) (ins / 16 % 16))
  else if ins / 4096 % 16 = 8 ∧ ins % 16 = 5 then
    some (c.op8xy5 (ins / 256 % 16) (ins / 16 % 16))
  else if ins / 4096 % 16 = 8 ∧ ins % 16 = 6 then
    some (c.op8xy6 (ins / 256 % 16) (ins / 16 % 16))
  else if ins / 4096 % 16 = 8 ∧ ins % 16 = 7 then
    some (c.op8xy7 (ins / 256 % 16) (ins / 16 % 16))
  else if ins / 4096 % 16 = 8 ∧ ins % 16 = 14 then
    some (c.op8xyE (ins / 256 % 16) (ins / 16 % 16))
  else if ins / 4096 % 16 = 9 then some (c.op9xy0 (ins / 256 % 16) (ins / 16 % 16))
  else if ins / 4096 % 16 = 10 then some (c.opAnnn (ins % 4096))
  else if ins / 4096 % 16 = 11 then some (c.opBnnn (ins % 4096))
  else if ins / 4096 % 16 = 12 then some (c.opCxkk (ins / 256 % 16) (ins % 256) rnd)
  else if ins / 4096 % 16 = 13 then
    c.opDxyn (ins / 256 % 16) (ins / 16 % 16) (ins % 16)
  else if ins / 4096 % 16 = 14 ∧ ins % 16 = 14 then c.opEx9E (ins / 256 % 16)
  else if ins / 4096 % 16 = 14 ∧ ins % 16 = 1 then c.opExA1 (ins / 256 % 16)
  else if ins / 4096 % 16 = 15 ∧ ins / 16 % 16 = 0 ∧ ins % 16 = 7 then
    some (c.opFx07 (ins / 256 % 16))
  else if ins / 4096 % 16 = 15 ∧ ins / 16 % 16 = 0 ∧ ins % 16 = 10 then
    some (c.opFx0A (ins / 256 % 16))
  else if ins / 4096 % 16 = 15 ∧ ins / 16 % 16 = 1 ∧ ins % 16 = 5 then
    some (c.opFx15 (ins / 256 % 16))
  else if ins / 4096 % 16 = 15 ∧ ins / 16 % 16 = 1 ∧ ins % 16 = 8 then
    some (c.opFx18 (ins / 256 % 16))
  else if ins / 4096 % 16 = 15 ∧ ins / 16 % 16 = 1 ∧ ins % 16 = 14 then
    some (c.opFx1E (ins / 256 % 16))
  else if ins / 4096 % 16 = 15 ∧ ins / 16 % 16 = 2 then
    some (c.opFx29 (ins / 256 % 16))
  else if ins / 4096 % 16 = 15 ∧ ins / 16 % 16 = 3 then
    c.opFx33 (ins / 256 % 16)
  else if ins / 4096 % 16 = 15 ∧ ins / 16 % 16 = 5 then
    c.opFx55 (ins / 256 % 16)
  else if ins / 4096 % 16 = 15 ∧ ins / 16 % 16 = 6 then
    c.opFx65 (ins / 256 % 16)
  else none

/-- `Chip8::run`, one tick: the host key snapshot `keys` is latched into
the keymap (the `is_key_down` poll), the screen render is an external
effect with no machine-state change, one instruction is fetched at `pc`
(aborting if the fetch is out of bounds) and dispatched, and then both
timers are decremented toward zero. -/
def Chip8.run (c : Chip8) (keys : List Bool) (rnd : Nat) : Option Chip8 :=
  let c0 : Chip8 := { c with keyboard := { keymap := keys } }
  if c0.pc + 1 < 4096 then
    let ins := (c0.memory.getD c0.pc 0 <<< 8) ||| c0.memory.getD (c0.pc + 1) 0
    match c0.execute_instruction ins rnd with
    | some c1 =>
        some { c1 with timers :=
          { delay := if c1.timers.delay > 0 then c1.timers.delay - 1 else c1.timers.delay,
            sound := if c1.timers.sound > 0 then c1.timers.sound - 1 else c1.timers.sound } }
    | none => none
  else none

/-- Well-formedness of a machine state: the list fields have the lengths
of the corresponding Rust arrays, byte values fit in a byte, and the
screen geometry is the one installed by `Screen::new`. -/
def Chip8.WF (c : Chip8) : Prop :=
  c.registers.v.length = 16 ∧ (∀ a ∈ c.registers.v, a < 256) ∧
  c.registers.i < 65536 ∧ c.pc < 65536 ∧
  c.screen.pixels.length = 2048 ∧ c.screen.rows = 32 ∧ c.screen.cols = 64 ∧
  c.memory.length = 4096 ∧ (∀ a ∈ c.memory, a < 256) ∧
  c.keyboard.keymap.length = 16

instance (c : Chip8) : Decidable c.WF := by
  unfold Chip8.WF; infer_instance

/- ===== derived decode predicates and draw-loop bookkeeping ===== -/

/-- The set of instruction words that reach the final (abort) arm of
`execute_instruction`: the words whose nibble pattern falls through every
match arm of the Rust dispatcher. -/
def fatalWord (ins : Nat) : Prop :=
  (ins / 4096 % 16 = 8 ∧ ¬(ins % 16 ≤ 7 ∨ ins % 16 = 14)) ∨
  (ins / 4096 % 16 = 14 ∧ ins % 16 ≠ 14 ∧ ins % 16 ≠ 1) ∨
  (ins / 4096 % 16 = 15 ∧
    ¬(ins / 16 % 16 = 0 ∧ ins % 16 = 7) ∧ ¬(ins / 16 % 16 = 0 ∧ ins % 16 = 10) ∧
    ¬(ins / 16 % 16 = 1 ∧ ins % 16 = 5) ∧ ¬(ins / 16 % 16 = 1 ∧ ins % 16 = 8) ∧
    ¬(ins / 16 % 16 = 1 ∧ ins % 16 = 14) ∧ ins / 16 % 16 ≠ 2 ∧ ins / 16 % 16 ≠ 3 ∧
    ins / 16 % 16 ≠ 5 ∧ ins / 16 % 16 ≠ 6)

instance (ins : Nat) : Decidable (fatalWord ins) := by
  unfold fatalWord; infer_instance

/-- Modelled from the spec: the 35 conventional opcode patterns of this
instruction set (§4.3), including the historical `0nnn` system-call
pattern that subsumes `00E0`/`00EE`.  A word matches this predicate
exactly when it instantiates one of the 35 patterns. -/
def specOpcode (ins : Nat) : Prop :=
  ins / 4096 % 16 = 0 ∨ ins / 4096 % 16 = 1 ∨ ins / 4096 % 16 = 2 ∨
  ins / 4096 % 16 = 3 ∨ ins / 4096 % 16 = 4 ∨
  (ins / 4096 % 16 = 5 ∧ ins % 16 = 0) ∨
  ins / 4096 % 16 = 6 ∨ ins / 4096 % 16 = 7 ∨
  (ins / 4096 % 16 = 8 ∧ (ins % 16 ≤ 7 ∨ ins % 16 = 14)) ∨
  (ins / 4096 % 16 = 9 ∧ ins % 16 = 0) ∨
  ins / 4096 % 16 = 10 ∨ ins / 4096 % 16 = 11 ∨ ins / 4096 % 16 = 12 ∨
  ins / 4096 % 16 = 13 ∨
  (ins / 4096 % 16 = 14 ∧ ins / 16 % 16 = 9 ∧ ins % 16 = 14) ∨
  (ins / 4096 % 16 = 14 ∧ ins / 16 % 16 = 10 ∧ ins % 16 = 1) ∨
  (ins / 4096 % 16 = 15 ∧
    (ins % 256 = 0x07 ∨ ins % 256 = 0x0A ∨ ins % 256 = 0x15 ∨ ins % 256 = 0x18 ∨
     ins % 256 = 0x1E ∨ ins % 256 = 0x29 ∨ ins % 256 = 0x33 ∨ ins % 256 = 0x55 ∨
     ins % 256 = 0x65))

instance (ins : Nat) : Decidable (specOpcode ins) := by
  unfold specOpcode; infer_instance

/-- The XOR contribution of the draw-loop iteration (byt, bit) to the
pixel at linear index p: true exactly when the iteration addresses p and
the sprite bit read from memory is 1.  Its arguments are the loop inputs
that stay fixed during a draw with coordinate registers other than v[15]. -/
def stepMask (mem : List Nat) (i vx vy : Nat) (byt bit : Nat) (p : Nat) : Bool :=
  decide ((vy + byt) % 32 * 64 + (vx + bit) % 64 = p) &&
    ((mem.getD (i + byt) 0 >>> (7 - bit)) &&& 1 == 1)

/-- The accumulated XOR mask of a list of draw-loop iterations at pixel p. -/
def maskList (mem : List Nat) (i vx vy : Nat) : List (Nat × Nat) → Nat → Bool
  | [], _ => false
  | pr :: L, p => xor (stepMask mem i vx vy pr.1 pr.2 p) (maskList mem i vx vy L p)

/-- The iteration sequence of the nested loops of `opDxyn`, flattened in
execution order: (0,0) ... (0,7), (1,0) ... (n-1,7). -/
def drawPairs (n : Nat) : List (Nat × Nat) :=
  (List.range n).flatMap fun byt => (List.range 8).map fun bit => (byt, bit)

/- ===== concrete machine states used by the concrete-run theorems ===== -/

/-- A fresh machine whose flag register v[15] holds 1 (all else as new). -/
def addCex : Chip8 :=
  { Chip8.new with registers := { v := (List.replicate 16 0).set 15 1, i := 0 } }

/-- A fresh machine whose register v[0] holds the byte 200 (≥ 16). -/
def keyOobState : Chip8 :=
  { Chip8.new with registers := { v := (List.replicate 16 0).set 0 200, i := 0 } }

/-- A fresh machine with the sprite byte 0b11000000 at memory address 0
and one lit pixel at (0,0): the state used to exercise a draw whose x
coordinate register is the flag register v[15]. -/
def drawCex : Chip8 :=
  { Chip8.new with
      memory := (List.replicate 4096 0).set 0 192,
      screen := { Screen.new with pixels := (List.replicate 2048 false).set 0 true } }

/-- The machine after one tick of the clear-screen/jump program of the
end-to-end scenario: program counter 514, display cleared. -/
def tickTarget : Chip8 :=
  { registers := { v := List.replicate 16 0, i := 0 }
    timers := { sound := 0, delay := 0 }
    screen := { pixels := List.replicate 2048 false, cols := 64, rows := 32, pixel_size := 24 }
    memory := writeSlice (writeSlice (List.replicate 4096 0) 0x200 [0x00, 0xE0, 0x12, 0x00]) 0 fontData
    stack := []
    pc := 514
    keyboard := { keymap := List.replicate 16 false } }

/- ===== small List helper lemmas (getD / set) ===== -/

lemma getD_set_eq_of_lt {α : Type} (l : List α) (i : Nat) (a d : α)
    (h : i < l.length) : (l.set i a).getD i d = a := by
  induction l generalizing i with
  | nil => simp at h
  | cons b t ih =>
    cases i with
    | zero => simp [List.set]
    | succ j =>
      simp only [List.set, List.getD_cons_succ]
      exact ih j (by simpa using h)

lemma getD_set_ne {α : Type} (l : List α) (i j : Nat) (a d : α)
    (h : i ≠ j) : (l.set i a).getD j d = l.getD j d := by
  induction l generalizing i j with
  | nil => simp [List.set]
  | cons b t ih =>
    cases i with
    | zero =>
      cases j with
      | zero => exact absurd rfl h
      | succ k => simp [List.set]
    | succ i' =>
      cases j with
      | zero => simp [List.set]
      | succ k =>
        simp only [List.set, List.getD_cons_succ]
        exact ih i' k (fun hik => h (by rw [hik]))

lemma getD_mem_of_lt {α : Type} (l : List α) (i : Nat) (d : α)
    (h : i < l.length) : l.getD i d ∈ l := by
  induction l generalizing i with
  | nil => simp at h
  | cons b t ih =>
    cases i with
    | zero => simp
    | succ j =>
      simp only [List.getD_cons_succ]
      exact List.mem_cons_of_mem _ (ih j (by simpa using h))

lemma eq_of_getD_eq {α : Type} (l₁ l₂ : List α) (d : α)
    (hlen : l₁.length = l₂.length)
    (h : ∀ p, l₁.getD p d = l₂.getD p d) : l₁ = l₂ := by
  induction l₁ generalizing l₂ with
  | nil => cases l₂ with
    | nil => rfl
    | cons b t => simp at hlen
  | cons a t ih =>
    cases l₂ with
    | nil => simp at hlen
    | cons b t₂ =>
      have h0 := h 0
      simp only [List.getD_cons_zero] at h0
      have ht : t = t₂ := ih t₂ (by simpa using hlen)
        (fun p => by simpa using h (p + 1))
      rw [h0, ht]

/- ===== helper lemmas about writeSlice ===== -/

lemma writeSlice_length (data : List Nat) : ∀ (mem : List Nat) (start : Nat),
    (writeSlice mem start data).length = mem.length := by
  induction data with
  | nil => intro mem start; rfl
  | cons b rest ih =>
    intro mem start
    show (writeSlice (mem.set start b) (start + 1) rest).length = mem.length
    rw [ih, List.length_set]

lemma writeSlice_getD_of_ge (data : List Nat) : ∀ (mem : List Nat) (start p : Nat),
    start + data.length ≤ p → (writeSlice mem start data).getD p 0 = mem.getD p 0 := by
  induction data with
  | nil => intro mem start p _; rfl
  | cons b rest ih =>
    intro mem start p h
    simp only [List.length_cons] at h
    show (writeSlice (mem.set start b) (start + 1) rest).getD p 0 = mem.getD p 0
    rw [ih (mem.set start b) (start + 1) p (by omega),
        getD_set_ne _ _ _ _ _ (by omega)]

lemma writeSlice_getD_of_lt (data : List Nat) : ∀ (mem : List Nat) (start p : Nat),
    p < start → (writeSlice mem start data).getD p 0 = mem.getD p 0 := by
  induction data with
  | nil => intro mem start p _; rfl
  | cons b rest ih =>
    intro mem start p h
    show (writeSlice (mem.set start b) (start + 1) rest).getD p 0 = mem.getD p 0
    rw [ih (mem.set start b) (start + 1) p (by omega),
        getD_set_ne _ _ _ _ _ (by omega)]

lemma writeSlice_getD_in (data : List Nat) : ∀ (mem : List Nat) (start k : Nat),
    k < data.length → start + k < mem.length →
    (writeSlice mem start data).getD (start + k) 0 = data.getD k 0 := by
  induction data with
  | nil => intro mem start k h _; simp at h
  | cons b rest ih =>
    intro mem start k hk hlen
    cases k with
    | zero =>
      show (writeSlice (mem.set start b) (start + 1) rest).getD (start + 0) 0 = b
      rw [writeSlice_getD_of_lt rest (mem.set start b) (start + 1) (start + 0)
            (by omega)]
      simpa using getD_set_eq_of_lt mem start b 0 (by omega)
    | succ k' =>
      show (writeSlice (mem.set start b) (start + 1) rest).getD (start + (k' + 1)) 0
        = rest.getD k' 0
      have harr : start + (k' + 1) = (start + 1) + k' := by omega
      rw [harr, ih (mem.set start b) (start + 1) k' (by simpa using hk)
            (by rw [List.length_set]; omega)]

/- ===== helper lemmas for well-formedness of concrete states ===== -/

lemma forall_mem_set {α : Type} (l : List α) (i : Nat) (b : α) (P : α → Prop) :
    (∀ a ∈ l, P a) → P b → ∀ a ∈ l.set i b, P a := by
  induction l generalizing i with
  | nil => intro _ _ a ha; simp [List.set] at ha
  | cons hd t ih =>
    intro hl hb a ha
    cases i with
    | zero =>
      rcases List.mem_cons.mp ha with h | h
      · rw [h]; exact hb
      · exact hl a (List.mem_cons_of_mem _ h)
    | succ j =>
      rcases List.mem_cons.mp ha with h | h
      · exact hl a (by rw [h]; exact List.mem_cons_self _ _)
      · exact ih j (fun a ha => hl a (List.mem_cons_of_mem _ ha)) hb a h

lemma wf_new : Chip8.new.WF := by
  refine ⟨?_, ?_, ?_, ?_, ?_, rfl, rfl, ?_, ?_, ?_⟩
  · show (List.replicate 16 (0 : Nat)).length = 16
    rw [List.length_replicate]
  · intro a ha
    rw [List.eq_of_mem_replicate (show a ∈ List.replicate 16 0 from ha)]
    norm_num
  · show (0 : Nat) < 65536
    norm_num
  · show (512 : Nat) < 65536
    norm_num
  · show (List.replicate 2048 false).length = 2048
    rw [List.length_replicate]
  · show (List.replicate 4096 (0 : Nat)).length = 4096
    rw [List.length_replicate]
  · intro a ha
    rw [List.eq_of_mem_replicate (show a ∈ List.replicate 4096 0 from ha)]
    norm_num
  · show (List.replicate 16 false).length = 16
    rw [List.length_replicate]

/- ===== dispatch lemmas: execute_instruction on well-formed words ===== -/

lemma exec_dispatch_00E0 (c : Chip8) (rnd : Nat) :
    c.execute_instruction 0x00E0 rnd = some c.op00E0 := rfl

lemma exec_dispatch_00EE (c : Chip8) (rnd : Nat) :
    c.execute_instruction 0x00EE rnd = c.op00EE := rfl

lemma exec_dispatch_2nnn (c : Chip8) (rnd nnn : Nat) (h : nnn < 4096) :
    c.execute_instruction (0x2000 + nnn) rnd = some (c.op2nnn nnn) := by
  have h1 : (0x2000 + nnn) / 4096 % 16 = 2 := by omega
  have h2 : (0x2000 + nnn) / 256 % 16 = nnn / 256 := by omega
  have h3 : (0x2000 + nnn) / 16 % 16 = nnn / 16 % 16 := by omega
  have h4 : (0x2000 + nnn) % 16 = nnn % 16 := by omega
  have h5 : (0x2000 + nnn) % 4096 = nnn := by omega
  unfold Chip8.execute_instruction
  rw [h1, h2, h3, h4, h5]
  norm_num

lemma exec_dispatch_7xkk (c : Chip8) (rnd x kk : Nat) (hx : x < 16) (hk : kk < 256) :
    c.execute_instruction (0x7000 + x * 256 + kk) rnd = some (c.op7xkk x kk) := by
  have h1 : (0x7000 + x * 256 + kk) / 4096 % 16 = 7 := by omega
  have h2 : (0x7000 + x * 256 + kk) / 256 % 16 = x := by omega
  have h3 : (0x7000 + x * 256 + kk) / 16 % 16 = kk / 16 := by omega
  have h4 : (0x7000 + x * 256 + kk) % 16 = kk % 16 := by omega
  have h5 : (0x7000 + x * 256 + kk) % 256 = kk := by omega
  unfold Chip8.execute_instruction
  rw [h1, h2, h3, h4, h5]
  norm_num

lemma exec_dispatch_8xy4 (c : Chip8) (rnd x y : Nat) (hx : x < 16) (hy : y < 16) :
    c.execute_instruction (0x8004 + x * 256 + y * 16) rnd = some (c.op8xy4 x y) := by
  have h1 : (0x8004 + x * 256 + y * 16) / 4096 % 16 = 8 := by omega
  have h2 : (0x8004 + x * 256 + y * 16) / 256 % 16 = x := by omega
  have h3 : (0x8004 + x * 256 + y * 16) / 16 % 16 = y := by omega
  have h4 : (0x8004 + x * 256 + y * 16) % 16 = 4 := by omega
  unfold Chip8.execute_instruction
  rw [h1, h2, h3, h4]
  norm_num

lemma exec_dispatch_Dxyn (c : Chip8) (rnd x y n : Nat)
    (hx : x < 16) (hy : y < 16) (hn : n < 16) :
    c.execute_instruction (0xD000 + x * 256 + y * 16 + n) rnd = c.opDxyn x y n := by
  have h1 : (0xD000 + x * 256 + y * 16 + n) / 4096 % 16 = 13 := by omega
  have h2 : (0xD000 + x * 256 + y * 16 + n) / 256 % 16 = x := by omega
  have h3 : (0xD000 + x * 256 + y * 16 + n) / 16 % 16 = y := by omega
  have h4 : (0xD000 + x * 256 + y * 16 + n) % 16 = n := by omega
  unfold Chip8.execute_instruction
  rw [h1, h2, h3, h4]
  norm_num

lemma exec_dispatch_Ex9E (c : Chip8) (rnd x : Nat) (hx : x < 16) :
    c.execute_instruction (0xE09E + x * 256) rnd = c.opEx9E x := by
  have h1 : (0xE09E + x * 256) / 4096 % 16 = 14 := by omega
  have h2 : (0xE09E + x * 256) / 256 % 16 = x := by omega
  have h3 : (0xE09E + x * 256) / 16 % 16 = 9 := by omega
  have h4 : (0xE09E + x * 256) % 16 = 14 := by omega
  unfold Chip8.execute_instruction
  rw [h1, h2, h3, h4]
  norm_num

lemma exec_dispatch_ExA1 (c : Chip8) (rnd x : Nat) (hx : x < 16) :
    c.execute_instruction (0xE0A1 + x * 256) rnd = c.opExA1 x := by
  have h1 : (0xE0A1 + x * 256) / 4096 % 16 = 14 := by omega
  have h2 : (0xE0A1 + x * 256) / 256 % 16 = x := by omega
  have h3 : (0xE0A1 + x * 256) / 16 % 16 = 10 := by omega
  have h4 : (0xE0A1 + x * 256) % 16 = 1 := by omega
  unfold Chip8.execute_instruction
  rw [h1, h2, h3, h4]
  norm_num

lemma exec_dispatch_Fx0A (c : Chip8) (rnd x : Nat) (hx : x < 16) :
    c.execute_instruction (0xF00A + x * 256) rnd = some (c.opFx0A x) := by
  have h1 : (0xF00A + x * 256) / 4096 % 16 = 15 := by omega
  have h2 : (0xF00A + x * 256) / 256 % 16 = x := by omega
  have h3 : (0xF00A + x * 256) / 16 % 16 = 0 := by omega
  have h4 : (0xF00A + x * 256) % 16 = 10 := by omega
  unfold Chip8.execute_instruction
  rw [h1, h2, h3, h4]
  norm_num

lemma exec_dispatch_Fx1E (c : Chip8) (rnd x : Nat) (hx : x < 16) :
    c.execute_instruction (0xF01E + x * 256) rnd = some (c.opFx1E x) := by
  have h1 : (0xF01E + x * 256) / 4096 % 16 = 15 := by omega
  have h2 : (0xF01E + x * 256) / 256 % 16 = x := by omega
  have h3 : (0xF01E + x * 256) / 16 % 16 = 1 := by omega
  have h4 : (0xF01E + x * 256) % 16 = 14 := by omega
  unfold Chip8.execute_instruction
  rw [h1, h2, h3, h4]
  norm_num

/- ===== run unfolding ===== -/

lemma run_eq (c : Chip8) (keys : List Bool) (rnd : Nat) (h : c.pc + 1 < 4096) :
    c.run keys rnd =
      (({ c with keyboard := { keymap := keys } } : Chip8).execute_instruction
          ((c.memory.getD c.pc 0 <<< 8) ||| c.memory.getD (c.pc + 1) 0) rnd).map
        (fun c1 => { c1 with timers :=
          { delay := if c1.timers.delay > 0 then c1.timers.delay - 1 else c1.timers.delay,
            sound := if c1.timers.sound > 0 then c1.timers.sound - 1 else c1.timers.sound } }) := by
  simp only [Chip8.run]
  rw [if_pos h]
  cases hres : ({ c with keyboard := { keymap := keys } } : Chip8).execute_instruction
      ((c.memory.getD c.pc 0 <<< 8) ||| c.memory.getD (c.pc + 1) 0) rnd with
  | none => rfl
  | some c1 => rfl

/- ===== findFirstKeyAux lemmas ===== -/

lemma findFirstKeyAux_none (km : List Bool) :
    ∀ idx, (∀ b ∈ km, b = false) → findFirstKeyAux km idx = none := by
  induction km with
  | nil => intro idx _; rfl
  | cons b rest ih =>
    intro idx hall
    show (if b then some idx else findFirstKeyAux rest (idx + 1)) = none
    rw [hall b (List.mem_cons_self _ _)]
    simp only [if_false, Bool.false_eq_true]
    exact ih (idx + 1) (fun b hb => hall b (List.mem_cons_of_mem _ hb))

lemma findFirstKeyAux_some (km : List Bool) :
    ∀ (j idx : Nat), km.getD j false = true →
    ∃ i, findFirstKeyAux km idx = some (idx + i) ∧ km.getD i false = true ∧
      ∀ k, k < i → km.getD k false = false := by
  induction km with
  | nil => intro j idx h; simp [List.getD] at h
  | cons b rest ih =>
    intro j idx h
    by_cases hb : b = true
    · refine ⟨0, ?_, by simpa using hb, fun k hk => by omega⟩
      show (if b then some idx else findFirstKeyAux rest (idx + 1)) = some (idx + 0)
      rw [hb]
      simp
    · have hb' : b = false := by
        cases b
        · rfl
        · exact absurd rfl hb
      cases j with
      | zero => rw [List.getD_cons_zero] at h; exact absurd h hb
      | succ j' =>
        rw [List.getD_cons_succ] at h
        obtain ⟨i, hfind, hget, hlt⟩ := ih j' (idx + 1) h
        refine ⟨i + 1, ?_, by simpa using hget, ?_⟩
        · show (if b then some idx else findFirstKeyAux rest (idx + 1)) = some (idx + (i + 1))
          rw [hb']
          simp only [if_false, Bool.false_eq_true]
          rw [hfind]
          congr 1
          omega
        · intro k hk
          cases k with
          | zero => simpa using hb'
          | succ k' => rw [List.getD_cons_succ]; exact hlt k' (by omega)

/- ===== draw-loop lemmas ===== -/

lemma drawPairs_mem_fst (n : Nat) (pr : Nat × Nat) (h : pr ∈ drawPairs n) : pr.1 < n := by
  unfold drawPairs at h
  obtain ⟨byt, hbyt, hpr⟩ := List.mem_flatMap.mp h
  obtain ⟨bit, _, hpr2⟩ := List.mem_map.mp hpr
  rw [← hpr2]
  exact List.mem_range.mp hbyt

lemma drawLoop_eq_pairs (x y : Nat) (n : Nat) : ∀ (init : Option Chip8),
    (List.range n).foldl (fun acc byt => (List.range 8).foldl
        (fun acc2 bit => acc2.bind fun cc => cc.drawStep x y byt bit) acc) init
    = (drawPairs n).foldl (fun acc pr => acc.bind fun cc => cc.drawStep x y pr.1 pr.2) init := by
  induction n with
  | zero => intro init; rfl
  | succ m ih =>
    intro init
    rw [List.range_succ m, List.foldl_append, ih]
    have hsplit : drawPairs (m + 1)
        = drawPairs m ++ (List.range 8).map (fun bit => (m, bit)) := by
      unfold drawPairs
      rw [List.range_succ m, List.flatMap_append]
      simp
    rw [hsplit, List.foldl_append, List.foldl_map]
    rfl

lemma drawStep_spec (c : Chip8) (x y byt bit : Nat)
    (hv : c.registers.v.length = 16) (hpix : c.screen.pixels.length = 2048)
    (hrows : c.screen.rows = 32) (hcols : c.screen.cols = 64)
    (hi : c.registers.i + byt < 4096) :
    ∃ c1, c.drawStep x y byt bit = some c1 ∧
      c1.memory = c.memory ∧ c1.registers.i = c.registers.i ∧ c1.pc = c.pc ∧
      c1.stack = c.stack ∧ c1.timers = c.timers ∧ c1.keyboard = c.keyboard ∧
      c1.screen.rows = 32 ∧ c1.screen.cols = 64 ∧
      c1.registers.v.length = 16 ∧ c1.screen.pixels.length = 2048 ∧
      (∀ j, j ≠ 15 → c1.registers.v.getD j 0 = c.registers.v.getD j 0) ∧
      (∀ p, c1.screen.pixels.getD p false =
        xor (c.screen.pixels.getD p false)
            (stepMask c.memory c.registers.i (c.registers.v.getD x 0)
               (c.registers.v.getD y 0) byt bit p)) := by
  unfold Chip8.drawStep Screen.set
  rw [if_pos hi]
  dsimp only
  rw [hrows, hcols]
  refine ⟨_, rfl, rfl, rfl, rfl, rfl, rfl, rfl, rfl, rfl, ?_, ?_, ?_, ?_⟩
  · rw [List.length_set]; exact hv
  · rw [List.length_set]; exact hpix
  · intro j hj
    exact getD_set_ne _ _ _ _ _ (fun h => hj h.symm)
  · intro p
    set idx := (c.registers.v.getD y 0 + byt) % 32 * 64 + (c.registers.v.getD x 0 + bit) % 64 with hidx
    by_cases hp : idx = p
    · rw [← hp]
      rw [getD_set_eq_of_lt _ _ _ _ (by rw [hpix]; omega)]
      unfold stepMask
      rw [← hidx]
      simp
    · rw [getD_set_ne _ _ _ _ _ hp]
      unfold stepMask
      rw [← hidx]
      rw [decide_eq_false hp]
      simp

lemma drawFold_spec (x y : Nat) (hx15 : x ≠ 15) (hy15 : y ≠ 15) :
    ∀ (L : List (Nat × Nat)) (c : Chip8),
    c.registers.v.length = 16 → c.screen.pixels.length = 2048 →
    c.screen.rows = 32 → c.screen.cols = 64 →
    (∀ pr ∈ L, c.registers.i + pr.1 < 4096) →
    ∃ c2, L.foldl (fun acc pr => acc.bind fun cc => cc.drawStep x y pr.1 pr.2) (some c)
        = some c2 ∧
      c2.memory = c.memory ∧ c2.registers.i = c.registers.i ∧ c2.pc = c.pc ∧
      c2.stack = c.stack ∧ c2.timers = c.timers ∧ c2.keyboard = c.keyboard ∧
      c2.screen.rows = 32 ∧ c2.screen.cols = 64 ∧
      c2.registers.v.length = 16 ∧ c2.screen.pixels.length = 2048 ∧
      (∀ j, j ≠ 15 → c2.registers.v.getD j 0 = c.registers.v.getD j 0) ∧
      (∀ p, c2.screen.pixels.getD p false =
        xor (c.screen.pixels.getD p false)
            (maskList c.memory c.registers.i (c.registers.v.getD x 0)
               (c.registers.v.getD y 0) L p)) := by
  intro L
  induction L with
  | nil =>
    intro c h1 h2 h3 h4 _
    exact ⟨c, rfl, rfl, rfl, rfl, rfl, rfl, rfl, h3, h4, h1, h2, fun j _ => rfl,
      fun p => by unfold maskList; simp⟩
  | cons pr L ih =>
    intro c h1 h2 h3 h4 hbound
    obtain ⟨c1, hstep, hmem, hi, hpc, hstack, htimers, hkb, hrows, hcols, hvlen,
      hpixlen, hvj, hpixstep⟩ :=
      drawStep_spec c x y pr.1 pr.2 h1 h2 h3 h4 (hbound pr (List.mem_cons_self _ _))
    obtain ⟨c2, hfold, hmem2, hi2, hpc2, hstack2, htimers2, hkb2, hrows2, hcols2,
      hvlen2, hpixlen2, hvj2, hpixfold⟩ :=
      ih c1 hvlen hpixlen hrows hcols
        (fun q hq => by rw [hi]; exact hbound q (List.mem_cons_of_mem _ hq))
    refine ⟨c2, ?_, by rw [hmem2, hmem], by rw [hi2, hi], by rw [hpc2, hpc],
      by rw [hstack2, hstack], by rw [htimers2, htimers], by rw [hkb2, hkb],
      hrows2, hcols2, hvlen2, hpixlen2,
      fun j hj => by rw [hvj2 j hj, hvj j hj], ?_⟩
    · rw [List.foldl_cons]
      show L.foldl _ ((some c).bind fun cc => cc.drawStep x y pr.1 pr.2) = some c2
      rw [Option.some_bind, hstep]
      exact hfold
    · intro p
      rw [hpixfold p, hpixstep p, hmem, hi, hvj x hx15, hvj y hy15]
      show _ = xor (c.screen.pixels.getD p false)
        (xor (stepMask c.memory c.registers.i (c.registers.v.getD x 0)
                (c.registers.v.getD y 0) pr.1 pr.2 p)
             (maskList c.memory c.registers.i (c.registers.v.getD x 0)
                (c.registers.v.getD y 0) L p))
      rw [← Bool.xor_assoc]

lemma opDxyn_spec (c : Chip8) (x y n : Nat) (hx15 : x ≠ 15) (hy15 : y ≠ 15)
    (h1 : c.registers.v.length = 16) (h2 : c.screen.pixels.length = 2048)
    (h3 : c.screen.rows = 32) (h4 : c.screen.cols = 64)
    (hbound : ∀ b, b < n → c.registers.i + b < 4096) :
    ∃ c2, c.opDxyn x y n = some c2 ∧
      c2.memory = c.memory ∧ c2.registers.i = c.registers.i ∧
      c2.pc = (c.pc + 2) % 65536 ∧ c2.stack = c.stack ∧ c2.timers = c.timers ∧
      c2.keyboard = c.keyboard ∧ c2.screen.rows = 32 ∧ c2.screen.cols = 64 ∧
      c2.registers.v.length = 16 ∧ c2.screen.pixels.length = 2048 ∧
      (∀ j, j ≠ 15 → c2.registers.v.getD j 0 = c.registers.v.getD j 0) ∧
      (∀ p, c2.screen.pixels.getD p false =
        xor (c.screen.pixels.getD p false)
            (maskList c.memory c.registers.i (c.registers.v.getD x 0)
               (c.registers.v.getD y 0) (drawPairs n) p)) := by
  obtain ⟨c2, hfold, hmem, hi, hpc, hstack, htimers, hkb, hrows, hcols, hvlen,
    hpixlen, hvj, hpix⟩ :=
    drawFold_spec x y hx15 hy15 (drawPairs n)
      ({ c with registers := { c.registers with v := c.registers.v.set 15 0 } } : Chip8)
      (by rw [List.length_set]; exact h1) h2 h3 h4
      (fun pr hpr => hbound pr.1 (drawPairs_mem_fst n pr hpr))
  refine ⟨{ c2 with pc := (c2.pc + 2) % 65536 }, ?_, hmem, hi, by rw [hpc], hstack,
    htimers, hkb, hrows, hcols, hvlen, hpixlen,
    fun j hj => by rw [hvj j hj]; exact getD_set_ne _ _ _ _ _ (fun h => hj h.symm), ?_⟩
  · unfold Chip8.opDxyn
    rw [drawLoop_eq_pairs x y n, hfold]
  · intro p
    rw [hpix p]
    congr 2
    · exact getD_set_ne _ _ _ _ _ (fun h => hx15 h.symm)
    · exact getD_set_ne _ _ _ _ _ (fun h => hy15 h.symm)

/- ===== claim theorems ===== -/

/-- C3: for every display-buffer state and every row, col and boolean
value, `set(row, col, value)` addresses the pixel at
(row mod 32, col mod 64), returns 1 exactly when that pixel was lit and
value is true, returns 0 otherwise, and updates that pixel to its previous
state XOR value, leaving every other pixel unchanged. -/
theorem screen_set_wraparound_xor (s : Screen) (hr : s.rows = 32) (hc : s.cols = 64)
    (hlen : s.pixels.length = 2048) (row col : Nat) (val : Bool) :
    ((s.set row col val).1
       = if s.pixels.getD (row % 32 * 64 + col % 64) false && val then 1 else 0) ∧
    ((s.set row col val).1 = 1 ↔
       (s.pixels.getD (row % 32 * 64 + col % 64) false = true ∧ val = true)) ∧
    ((s.set row col val).2.pixels.getD (row % 32 * 64 + col % 64) false
       = xor (s.pixels.getD (row % 32 * 64 + col % 64) false) val) ∧
    (∀ p, p ≠ row % 32 * 64 + col % 64 →
       (s.set row col val).2.pixels.getD p false = s.pixels.getD p false) := by
  unfold Screen.set
  dsimp only
  rw [hr, hc]
  refine ⟨rfl, ?_, ?_, ?_⟩
  · cases hpix : s.pixels.getD (row % 32 * 64 + col % 64) false <;> cases val <;>
      simp [hpix]
  · exact getD_set_eq_of_lt _ _ _ _ (by rw [hlen]; omega)
  · intro p hp
    exact getD_set_ne _ _ _ _ _ (fun h => hp h.symm)

/-- C3 witness: the theorem applied to the fresh screen at (5, 3). -/
theorem screen_set_wraparound_xor_witness :
    Screen.new.pixels.length = 2048 ∧
    ((Screen.new.set 5 3 true).2.pixels.getD (5 % 32 * 64 + 3 % 64) false
       = xor (Screen.new.pixels.getD (5 % 32 * 64 + 3 % 64) false) true) := by
  have hlen : Screen.new.pixels.length = 2048 := by
    show (List.replicate 2048 false).length = 2048
    rw [List.length_replicate]
  exact ⟨hlen, (screen_set_wraparound_xor Screen.new rfl rfl hlen 5 3 true).2.2.1⟩

/-- C5: executing call (2nnn) then return (00EE) yields program counter
p + 2 (as a 16-bit sum) and restores the stack, registers, memory, timers
and display: the final state is the initial state with only the program
counter advanced past the call instruction. -/
theorem call_return_roundtrip (c : Chip8) (rnd nnn : Nat) (h : nnn < 4096) :
    ∃ c1, c.execute_instruction (0x2000 + nnn) rnd = some c1 ∧
      c1.execute_instruction 0x00EE rnd = some { c with pc := (c.pc + 2) % 65536 } := by
  refine ⟨c.op2nnn nnn, exec_dispatch_2nnn c rnd nnn h, ?_⟩
  rw [exec_dispatch_00EE]
  rfl

/-- C5 witness: call to 0x300 and return on the fresh machine. -/
theorem call_return_roundtrip_witness :
    (0x300 : Nat) < 4096 ∧
    ∃ c1, Chip8.execute_instruction Chip8.new (0x2000 + 0x300) 0 = some c1 ∧
      Chip8.execute_instruction c1 0x00EE 0
        = some { Chip8.new with pc := (Chip8.new.pc + 2) % 65536 } :=
  ⟨by norm_num, call_return_roundtrip Chip8.new 0 0x300 (by norm_num)⟩

/-- C6: the add-to-index instruction (Fx1E) always succeeds and yields
index + register[x] reduced modulo 2^16, and the add-immediate
instruction (7xkk) always succeeds and yields the wrapped 8-bit sum:
this arithmetic is modular and never an overflow error. -/
theorem wrapping_index_add (c : Chip8) (rnd x kk : Nat) (hx : x < 16) (hkk : kk < 256) :
    c.execute_instruction (0xF01E + x * 256) rnd =
      some { c with
             registers := { c.registers with i := (c.registers.i + c.registers.v.getD x 0) % 65536 },
             pc := (c.pc + 2) % 65536 } ∧
    c.execute_instruction (0x7000 + x * 256 + kk) rnd =
      some { c with
             registers := { c.registers with v := c.registers.v.set x ((c.registers.v.getD x 0 + kk) % 256) },
             pc := (c.pc + 2) % 65536 } :=
  ⟨by rw [exec_dispatch_Fx1E c rnd x hx]; rfl,
   by rw [exec_dispatch_7xkk c rnd x kk hx hkk]; rfl⟩

/-- C6 witness: the theorem applied to the fresh machine with x = 3, kk = 250. -/
theorem wrapping_index_add_witness :
    (3 : Nat) < 16 ∧ (250 : Nat) < 256 ∧
    Chip8.execute_instruction Chip8.new (0xF01E + 3 * 256) 0 =
      some { Chip8.new with
             registers := { Chip8.new.registers with i := (Chip8.new.registers.i + Chip8.new.registers.v.getD 3 0) % 65536 },
             pc := (Chip8.new.pc + 2) % 65536 } :=
  ⟨by norm_num, by norm_num,
   (wrapping_index_add Chip8.new 0 3 250 (by norm_num) (by norm_num)).1⟩

/-- C9: executing return (00EE) with an empty call stack aborts the
process; with a non-empty stack it always succeeds, popping the top and
resuming two bytes after it. -/
theorem return_on_empty_stack (c : Chip8) (rnd : Nat) :
    (c.stack = [] → c.execute_instruction 0x00EE rnd = none) ∧
    (∀ t rest, c.stack = t :: rest →
      c.execute_instruction 0x00EE rnd
        = some { c with stack := rest, pc := (t + 2) % 65536 }) := by
  constructor
  · intro h
    rw [exec_dispatch_00EE]
    unfold Chip8.op00EE
    rw [h]
  · intro t rest h
    rw [exec_dispatch_00EE]
    unfold Chip8.op00EE
    rw [h]

/-- C9 witness: the fresh machine (empty stack) aborts on 00EE. -/
theorem return_on_empty_stack_witness :
    Chip8.new.stack = [] ∧ Chip8.execute_instruction Chip8.new 0x00EE 0 = none :=
  ⟨rfl, (return_on_empty_stack Chip8.new 0).1 rfl⟩

/-- C10: the key-skip instructions Ex9E and ExA1 index the 16-entry key
map with the full byte in register x: with register[x] < 16 both always
produce a state, with register[x] >= 16 both abort out of bounds. -/
theorem key_skip_index_bound (c : Chip8) (rnd x : Nat) (hx : x < 16) :
    (c.registers.v.getD x 0 < 16 →
      (∃ c1, c.execute_instruction (0xE09E + x * 256) rnd = some c1) ∧
      (∃ c2, c.execute_instruction (0xE0A1 + x * 256) rnd = some c2)) ∧
    (16 ≤ c.registers.v.getD x 0 →
      c.execute_instruction (0xE09E + x * 256) rnd = none ∧
      c.execute_instruction (0xE0A1 + x * 256) rnd = none) := by
  constructor
  · intro h
    constructor
    · rw [exec_dispatch_Ex9E c rnd x hx]
      unfold Chip8.opEx9E
      rw [if_pos h]
      split
      · exact ⟨_, rfl⟩
      · exact ⟨_, rfl⟩
    · rw [exec_dispatch_ExA1 c rnd x hx]
      unfold Chip8.opExA1
      rw [if_pos h]
      split
      · exact ⟨_, rfl⟩
      · exact ⟨_, rfl⟩
  · intro h
    constructor
    · rw [exec_dispatch_Ex9E c rnd x hx]
      unfold Chip8.opEx9E
      rw [if_neg (by omega)]
    · rw [exec_dispatch_ExA1 c rnd x hx]
      unfold Chip8.opExA1
      rw [if_neg (by omega)]

/-- C10 witness: a state with v[0] = 200 aborts on both key-skip words. -/
theorem key_skip_index_bound_witness :
    16 ≤ keyOobState.registers.v.getD 0 0 ∧
    Chip8.execute_instruction keyOobState (0xE09E + 0 * 256) 0 = none ∧
    Chip8.execute_instruction keyOobState (0xE0A1 + 0 * 256) 0 = none := by
  have h16 : 16 ≤ keyOobState.registers.v.getD 0 0 := by decide
  obtain ⟨h1, h2⟩ := (key_skip_index_bound keyOobState 0 0 (by norm_num)).2 h16
  exact ⟨h16, h1, h2⟩

/-- C1 (amended): the add-registers instruction (8xy4) always sets the
flag register v[15] to 1 when the unclamped sum exceeds 255 and to 0
otherwise, and leaves the result register x equal to the wrapped 8-bit
sum whenever x is not 15; when x = 15 the flag write overwrites the
stored sum. -/
theorem add_registers_flag_and_wrap (c : Chip8) (hwf : c.WF) (rnd x y : Nat)
    (hx : x < 16) (hy : y < 16) :
    ∃ c1, c.execute_instruction (0x8004 + x * 256 + y * 16) rnd = some c1 ∧
      c1.registers.v.getD 15 0
        = (if c.registers.v.getD x 0 + c.registers.v.getD y 0 > 255 then 1 else 0) ∧
      (x ≠ 15 → c1.registers.v.getD x 0
        = (c.registers.v.getD x 0 + c.registers.v.getD y 0) % 256) ∧
      c1.pc = (c.pc + 2) % 65536 := by
  obtain ⟨hvlen, -, -, -, -, -, -, -, -, -⟩ := hwf
  refine ⟨c.op8xy4 x y, exec_dispatch_8xy4 c rnd x y hx hy, ?_, ?_, rfl⟩
  · unfold Chip8.op8xy4
    dsimp only
    split
    · rw [getD_set_eq_of_lt _ _ _ _ (by rw [List.length_set, hvlen]; omega)]
    · rw [getD_set_eq_of_lt _ _ _ _ (by rw [List.length_set, hvlen]; omega)]
  · intro hx15
    unfold Chip8.op8xy4
    dsimp only
    split <;>
      rw [getD_set_ne _ _ _ _ _ (fun hh => hx15 hh.symm),
          getD_set_eq_of_lt _ _ _ _ (by rw [hvlen]; omega)]

/-- C1 witness: the amended theorem applied to the fresh machine with
x = 0, y = 1. -/
theorem add_registers_flag_and_wrap_witness :
    Chip8.new.WF ∧ (0 : Nat) < 16 ∧ (1 : Nat) < 16 ∧
    ∃ c1, Chip8.execute_instruction Chip8.new (0x8004 + 0 * 256 + 1 * 16) 0 = some c1 ∧
      c1.registers.v.getD 15 0
        = (if Chip8.new.registers.v.getD 0 0 + Chip8.new.registers.v.getD 1 0 > 255
           then 1 else 0) ∧
      ((0 : Nat) ≠ 15 → c1.registers.v.getD 0 0
        = (Chip8.new.registers.v.getD 0 0 + Chip8.new.registers.v.getD 1 0) % 256) ∧
      c1.pc = (Chip8.new.pc + 2) % 65536 :=
  ⟨wf_new, by norm_num, by norm_num,
   add_registers_flag_and_wrap Chip8.new wf_new 0 0 1 (by norm_num) (by norm_num)⟩

/-- C1 counterexample: on a machine with v[15] = 1 and v[0] = 0, the word
0x8F04 (x = 15, y = 0) leaves the result register v[15] holding the flag
value 0 rather than the claimed wrapped sum (1 + 0) mod 256 = 1. -/
theorem add_registers_flag_overwrite_cex :
    (Chip8.execute_instruction addCex 0x8F04 0).map (fun c => c.registers.v.getD 15 0)
      = some 0 ∧
    (addCex.registers.v.getD 15 0 + addCex.registers.v.getD 0 0) % 256 = 1 := by
  constructor
  · rfl
  · rfl

set_option maxHeartbeats 2000000 in
/-- C2 (amended): the instruction words that the dispatcher treats as a
fatal decode error are exactly the residual set of its (wildcarded) match
arms: 8xyk with k not in 0..7 or 14, Exyk with k not 1 or 14, and Fxkk
with an unhandled trailing pattern.  Such a word aborts execution and
produces no state. -/
theorem fatal_decode_words (c : Chip8) (ins rnd : Nat) (h : fatalWord ins) :
    c.execute_instruction ins rnd = none := by
  unfold fatalWord at h
  unfold Chip8.execute_instruction
  iterate 34 rw [if_neg (by omega)]

/-- C2 witness: the word 0x8008 is in the residual set and aborts. -/
theorem fatal_decode_words_witness :
    fatalWord 0x8008 ∧ Chip8.execute_instruction Chip8.new 0x8008 0 = none :=
  ⟨by decide, fatal_decode_words Chip8.new 0x8008 0 (by decide)⟩

/-- C2 counterexample: 0x5001 matches none of the 35 conventional opcode
patterns (5xy0 requires a trailing 0 nibble), yet the dispatcher does not
abort: the wildcarded 5xxx arm runs the skip-if-equal handler, which
mutates the program counter of the fresh machine from 512 to 516. -/
theorem fatal_decode_words_cex :
    ¬ specOpcode 0x5001 ∧
    (Chip8.execute_instruction Chip8.new 0x5001 0).map Chip8.pc = some 516 := by
  constructor
  · decide
  · rfl

/-- C4: with no key down, the block-for-key instruction (Fx0A) leaves the
machine (and in particular the program counter) unchanged under any
number of dispatches; with at least one key down, a single dispatch
stores the lowest-indexed down key into register x and advances the
program counter by exactly 2. -/
theorem block_for_key_fx0a (c : Chip8) (rnd x : Nat) (hx : x < 16) :
    ((∀ b ∈ c.keyboard.keymap, b = false) →
      ∀ m : Nat, (fun o : Option Chip8 =>
          o.bind fun s => s.execute_instruction (0xF00A + x * 256) rnd)^[m] (some c)
        = some c) ∧
    (∀ j : Nat, c.keyboard.keymap.getD j false = true →
      ∃ i, c.keyboard.keymap.getD i false = true ∧
        (∀ k, k < i → c.keyboard.keymap.getD k false = false) ∧
        c.execute_instruction (0xF00A + x * 256) rnd
          = some { c with
                   registers := { c.registers with v := c.registers.v.set x i },
                   pc := (c.pc + 2) % 65536 }) := by
  have hstep : (∀ b ∈ c.keyboard.keymap, b = false) →
      c.execute_instruction (0xF00A + x * 256) rnd = some c := by
    intro hall
    rw [exec_dispatch_Fx0A c rnd x hx]
    unfold Chip8.opFx0A
    rw [findFirstKeyAux_none c.keyboard.keymap 0 hall]
  constructor
  · intro hall m
    induction m with
    | zero => rfl
    | succ k ihm =>
      rw [Function.iterate_succ_apply', ihm]
      show (some c).bind _ = some c
      rw [Option.some_bind]
      exact hstep hall
  · intro j hj
    obtain ⟨i, hfind, hget, hlt⟩ := findFirstKeyAux_some c.keyboard.keymap j 0 hj
    rw [Nat.zero_add] at hfind
    refine ⟨i, hget, hlt, ?_⟩
    rw [exec_dispatch_Fx0A c rnd x hx]
    unfold Chip8.opFx0A
    rw [hfind]

/-- C4 witness: on the fresh machine (no key down) three dispatches of
Fx0A leave the state unchanged. -/
theorem block_for_key_fx0a_witness :
    (0 : Nat) < 16 ∧
    (fun o : Option Chip8 =>
        o.bind fun s => s.execute_instruction (0xF00A + 0 * 256) 0)^[3] (some Chip8.new)
      = some Chip8.new :=
  ⟨by norm_num,
   (block_for_key_fx0a Chip8.new 0 0 (by norm_num)).1
     (fun b hb => List.eq_of_mem_replicate hb) 3⟩

/-- C7 (amended): drawing the same sprite twice with identical operands
and identical memory restores every display pixel, provided the
coordinate register indices x and y are not the flag register 15 (the
flag updates during a draw would otherwise move the second draw) and all
sprite rows are read in bounds. -/
theorem draw_sprite_double_draw (c : Chip8) (hwf : c.WF) (rnd x y n : Nat)
    (hx : x < 16) (hy : y < 16) (hn : n < 16) (hx15 : x ≠ 15) (hy15 : y ≠ 15)
    (hbound : ∀ b, b < n → c.registers.i + b < 4096) :
    ∃ c1 c2, c.execute_instruction (0xD000 + x * 256 + y * 16 + n) rnd = some c1 ∧
      c1.execute_instruction (0xD000 + x * 256 + y * 16 + n) rnd = some c2 ∧
      c2.screen.pixels = c.screen.pixels := by
  obtain ⟨hvlen, -, -, -, hpixlen, hrows, hcols, -, -, -⟩ := hwf
  obtain ⟨c1, hop1, hmem1, hi1, hpc1, -, -, -, hrows1, hcols1, hvlen1, hpixlen1,
    hvj1, hpix1⟩ :=
    opDxyn_spec c x y n hx15 hy15 hvlen hpixlen hrows hcols hbound
  obtain ⟨c2, hop2, -, -, -, -, -, -, -, -, -, hpixlen2, -, hpix2⟩ :=
    opDxyn_spec c1 x y n hx15 hy15 hvlen1 hpixlen1 hrows1 hcols1
      (fun b hb => by rw [hi1]; exact hbound b hb)
  refine ⟨c1, c2, ?_, ?_, ?_⟩
  · rw [exec_dispatch_Dxyn c rnd x y n hx hy hn]
    exact hop1
  · rw [exec_dispatch_Dxyn c1 rnd x y n hx hy hn]
    exact hop2
  · apply eq_of_getD_eq _ _ false (by rw [hpixlen2, hpixlen])
    intro p
    rw [hpix2 p, hmem1, hi1, hvj1 x hx15, hvj1 y hy15, hpix1 p,
        Bool.xor_assoc, Bool.xor_self, Bool.xor_false]

/-- C7 witness: the amended theorem applied to the fresh machine with
x = 0, y = 1, n = 1. -/
theorem draw_sprite_double_draw_witness :
    Chip8.new.WF ∧
    ∃ c1 c2, Chip8.execute_instruction Chip8.new (0xD000 + 0 * 256 + 1 * 16 + 1) 0
        = some c1 ∧
      Chip8.execute_instruction c1 (0xD000 + 0 * 256 + 1 * 16 + 1) 0 = some c2 ∧
      c2.screen.pixels = Chip8.new.screen.pixels :=
  ⟨wf_new,
   draw_sprite_double_draw Chip8.new wf_new 0 0 1 1 (by norm_num) (by norm_num)
     (by norm_num) (by norm_num) (by norm_num)
     (fun b hb => by show (0 : Nat) + b < 4096; omega)⟩

/-- C7 counterexample: with the coordinate register x = 15 (word 0xDF01),
a lit pixel at (0,0) and the sprite byte 0b11000000 at address 0, drawing
twice does not restore the display: the collision flag written into v[15]
during the first draw shifts the second draw, leaving pixel (0,1) lit
although it was dark initially. -/
theorem draw_sprite_double_draw_cex :
    drawCex.screen.pixels.getD 1 false = false ∧
    ((Chip8.execute_instruction drawCex 0xDF01 0).bind
        (fun c1 => Chip8.execute_instruction c1 0xDF01 0)).map
      (fun c2 => c2.screen.pixels.getD 1 false) = some true := by
  constructor
  · rfl
  · rfl

lemma fontData_length : fontData.length = 80 := rfl

lemma loaded_memory_getD_512 :
    (Chip8.new.load [0x00, 0xE0, 0x12, 0x00]).memory.getD 512 0 = 0x00 := by
  show (writeSlice (writeSlice (List.replicate 4096 0) 0x200 [0x00, 0xE0, 0x12, 0x00])
          0 fontData).getD 512 0 = 0x00
  rw [writeSlice_getD_of_ge fontData _ 0 512 (by rw [fontData_length]; omega)]
  have h := writeSlice_getD_in [0x00, 0xE0, 0x12, 0x00] (List.replicate 4096 0) 512 0
    (by norm_num) (by rw [List.length_replicate]; omega)
  rw [Nat.add_zero] at h
  exact h.trans rfl

lemma loaded_memory_getD_513 :
    (Chip8.new.load [0x00, 0xE0, 0x12, 0x00]).memory.getD 513 0 = 0xE0 := by
  show (writeSlice (writeSlice (List.replicate 4096 0) 0x200 [0x00, 0xE0, 0x12, 0x00])
          0 fontData).getD 513 0 = 0xE0
  rw [writeSlice_getD_of_ge fontData _ 0 513 (by rw [fontData_length]; omega)]
  have h := writeSlice_getD_in [0x00, 0xE0, 0x12, 0x00] (List.replicate 4096 0) 512 1
    (by norm_num) (by rw [List.length_replicate]; omega)
  rw [show (513 : Nat) = 512 + 1 from by norm_num]
  exact h.trans rfl

lemma run_tick_clear_jump :
    (Chip8.new.load [0x00, 0xE0, 0x12, 0x00]).run (List.replicate 16 false) 0
      = some tickTarget := by
  have hpc : (Chip8.new.load [0x00, 0xE0, 0x12, 0x00]).pc = 512 := rfl
  rw [run_eq _ _ _ (by rw [hpc]; norm_num)]
  rw [hpc, loaded_memory_getD_512, loaded_memory_getD_513]
  rw [show ((0x00 : Nat) <<< 8) ||| 0xE0 = 0x00E0 by norm_num]
  rw [exec_dispatch_00E0]
  rfl

/-- C8 counterexample: one tick of the freshly loaded clear-screen/jump
program leaves the program counter at 514, not 512: only the clear-screen
instruction has executed, and its handler advances the PC by 2 from 512. -/
theorem one_tick_pc_cex :
    ((Chip8.new.load [0x00, 0xE0, 0x12, 0x00]).run (List.replicate 16 false) 0).map Chip8.pc
      = some 514 ∧ (514 : Nat) ≠ 512 := by
  constructor
  · rw [run_tick_clear_jump]
    rfl
  · norm_num

/-- C8 (amended): loading the program 0x00E0, 0x1200 into a fresh machine
and executing one tick yields an all-false display buffer and program
counter 514 (the jump back to 512 would execute only on the second tick). -/
theorem one_tick_clear_jump :
    (Chip8.new.load [0x00, 0xE0, 0x12, 0x00]).run (List.replicate 16 false) 0
      = some tickTarget ∧
    tickTarget.screen.pixels = List.replicate 2048 false ∧ tickTarget.pc = 514 :=
  ⟨run_tick_clear_jump, rfl, rfl⟩
